import Mathlib

/-!
Shallow embedding of the paper ingestion-and-enrichment pipeline of the
AI-red-team-monitor repository: the record store (database.py), the source
collector (arxiv_collector.py), the enrichment engine (paper_processor.py) and
the collection entry point (main.py).

Modelling conventions:
* A database row of the papers table (database.py, CREATE TABLE) is the
  structure Row.  Nullable columns are Option-typed; list-valued fields
  (authors, arxiv_categories, attack_categories) hold the deserialized values
  (de/serialization through JSON text is transparent on the claim-relevant
  paths and is modelled only where a query inspects the serialized text,
  namely the LIKE filter of get_papers_by_category).
* A Python dict flowing into save_papers is the structure Paper: an id plus a
  PaperUpdate whose fields are Option-wrapped so that none means the key is
  absent from the dict and some v means the key is present with value v
  (for nullable columns v is itself an Option, some none meaning the key is
  present and maps to None).
* A raised exception is an error value: fallible operations return Option or
  Except.  A sqlite error inside save_papers aborts the batch before commit,
  so save_papers returns none and the store is unchanged.
* SQLite date('now', '-N days') is abstracted into an explicit cutoff string
  parameter; for the ISO dates the collector writes, the SQL date comparison
  is code-point lexicographic comparison, modelled by lexLe on the character
  lists.
* External services (the arxiv client iterator, the LLM API, json.loads) are
  parameters of the functions that call them.
-/

/-- Row of the papers table as created by PaperDatabase, database.py lines
27 to 47.  Column types follow the schema: TEXT NOT NULL columns are String,
nullable columns are Option, processed is BOOLEAN DEFAULT 0. -/
structure Row where
  id : String
  title : String
  authors : List String
  summary : String
  published : String
  updated : String
  arxiv_categories : List String
  pdf_url : String
  abstract_url : String
  brief_overview : Option String
  technical_explanation : Option String
  attack_categories : Option (List String)
  relevance_score : Option Int
  processed : Bool
  processed_at : Option String
  processing_error : Option String
  created_at : String
deriving DecidableEq

/-- Keys that may appear in a paper dict handed to save_papers (all columns
except id, which is carried separately).  none means the key is absent from
the dict; for nullable columns the inner Option is the stored value. -/
structure PaperUpdate where
  title : Option String := none
  authors : Option (List String) := none
  summary : Option String := none
  published : Option String := none
  updated : Option String := none
  arxiv_categories : Option (List String) := none
  pdf_url : Option String := none
  abstract_url : Option String := none
  brief_overview : Option (Option String) := none
  technical_explanation : Option (Option String) := none
  attack_categories : Option (Option (List String)) := none
  relevance_score : Option (Option Int) := none
  processed : Option Bool := none
  processed_at : Option (Option String) := none
  processing_error : Option (Option String) := none
deriving DecidableEq

/-- Python dict for one paper: the id key plus the remaining keys. -/
structure Paper where
  id : String
  upd : PaperUpdate
deriving DecidableEq

/-- True when the dict holds no key besides id.  In that case the UPDATE
branch of save_papers builds an UPDATE statement with an empty SET clause,
which sqlite rejects (the batch aborts). -/
def PaperUpdate.isEmpty (u : PaperUpdate) : Bool :=
  u.title.isNone && u.authors.isNone && u.summary.isNone && u.published.isNone &&
  u.updated.isNone && u.arxiv_categories.isNone && u.pdf_url.isNone &&
  u.abstract_url.isNone && u.brief_overview.isNone && u.technical_explanation.isNone &&
  u.attack_categories.isNone && u.relevance_score.isNone && u.processed.isNone &&
  u.processed_at.isNone && u.processing_error.isNone

/-- UPDATE papers SET k1 = v1, ... WHERE id = ?  (database.py lines 80 to 94):
every key present in the dict overwrites the column, every absent key leaves
the column untouched; id and created_at are not rewritten (id is skipped
explicitly, created_at never appears in a dict built by this program). -/
def applyUpdate (r : Row) (u : PaperUpdate) : Row :=
  { id := r.id
    title := u.title.getD r.title
    authors := u.authors.getD r.authors
    summary := u.summary.getD r.summary
    published := u.published.getD r.published
    updated := u.updated.getD r.updated
    arxiv_categories := u.arxiv_categories.getD r.arxiv_categories
    pdf_url := u.pdf_url.getD r.pdf_url
    abstract_url := u.abstract_url.getD r.abstract_url
    brief_overview := u.brief_overview.getD r.brief_overview
    technical_explanation := u.technical_explanation.getD r.technical_explanation
    attack_categories := u.attack_categories.getD r.attack_categories
    relevance_score := u.relevance_score.getD r.relevance_score
    processed := u.processed.getD r.processed
    processed_at := u.processed_at.getD r.processed_at
    processing_error := u.processing_error.getD r.processing_error
    created_at := r.created_at }

/-- INSERT INTO papers (...) VALUES (...)  (database.py lines 95 to 103).
Supplied keys become column values, absent nullable columns default to NULL,
processed defaults to 0, created_at defaults to the current timestamp (the
now argument).  A NOT NULL column whose key is absent makes sqlite raise, so
the insert yields none and the batch aborts. -/
def rowOfInsert (now : String) (p : Paper) : Option Row :=
  match p.upd.title, p.upd.authors, p.upd.summary, p.upd.published, p.upd.updated,
      p.upd.arxiv_categories, p.upd.pdf_url, p.upd.abstract_url with
  | some t, some au, some s, some pub, some up, some ac, some pu, some ab =>
    some { id := p.id, title := t, authors := au, summary := s, published := pub,
           updated := up, arxiv_categories := ac, pdf_url := pu, abstract_url := ab,
           brief_overview := p.upd.brief_overview.getD none,
           technical_explanation := p.upd.technical_explanation.getD none,
           attack_categories := p.upd.attack_categories.getD none,
           relevance_score := p.upd.relevance_score.getD none,
           processed := p.upd.processed.getD false,
           processed_at := p.upd.processed_at.getD none,
           processing_error := p.upd.processing_error.getD none,
           created_at := now }
  | _, _, _, _, _, _, _, _ => none

/-- True when all NOT NULL columns of the schema have a key in the dict, so
the INSERT branch succeeds. -/
def Paper.insertable (p : Paper) : Bool :=
  p.upd.title.isSome && p.upd.authors.isSome && p.upd.summary.isSome &&
  p.upd.published.isSome && p.upd.updated.isSome && p.upd.arxiv_categories.isSome &&
  p.upd.pdf_url.isSome && p.upd.abstract_url.isSome

/-- Body of the per-paper loop of PaperDatabase.save_papers (database.py lines
69 to 103): SELECT id FROM papers WHERE id = ? decides between the UPDATE
branch (applied to every row whose id matches, as the SQL UPDATE does) and the
INSERT branch (row appended).  none models a raised sqlite error. -/
def save_one (now : String) (store : List Row) (p : Paper) : Option (List Row) :=
  if store.any (fun r => r.id == p.id) then
    if p.upd.isEmpty then none
    else some (store.map (fun r => if r.id == p.id then applyUpdate r p.upd else r))
  else
    match rowOfInsert now p with
    | some row => some (store ++ [row])
    | none => none

/-- Loop of save_papers over the batch, counting inserted plus updated rows.
An exception on any paper reaches the caller before conn.commit(), so the
whole batch is rolled back: the result is none and the store is unchanged. -/
def save_loop (now : String) (store : List Row) : List Paper → Option (List Row × Nat)
  | [] => some (store, 0)
  | p :: ps =>
    match save_one now store p with
    | none => none
    | some store1 =>
      match save_loop now store1 ps with
      | none => none
      | some (s, n) => some (s, n + 1)

/-- PaperDatabase.save_papers (database.py lines 58 to 109): upsert of a batch
of paper dicts; returns the new store and the count inserted + updated.  An
empty batch returns 0 leaving the store as is. -/
def save_papers (now : String) (store : List Row) (papers : List Paper) :
    Option (List Row × Nat) :=
  save_loop now store papers

/-- Code-point lexicographic comparison of character lists: the order sqlite
uses for TEXT columns with the default BINARY collation restricted to the
ASCII dates this program stores, and the order of Python string comparison. -/
def lexLe : List Char → List Char → Bool
  | [], _ => true
  | _ :: _, [] => false
  | a :: as, b :: bs => if a < b then true else if b < a then false else lexLe as bs

theorem lexLe_total : ∀ a b : List Char, lexLe a b = true ∨ lexLe b a = true
  | [], _ => Or.inl rfl
  | _ :: _, [] => Or.inr rfl
  | a :: as, b :: bs => by
    by_cases hab : a < b
    · exact Or.inl (by simp [lexLe, hab])
    · by_cases hba : b < a
      · exact Or.inr (by simp [lexLe, hba])
      · rcases lexLe_total as bs with h | h
        · exact Or.inl (by simp [lexLe, hab, hba, h])
        · exact Or.inr (by simp [lexLe, hab, hba, h])

theorem lexLe_trans : ∀ a b c : List Char,
    lexLe a b = true → lexLe b c = true → lexLe a c = true
  | [], _, _, _, _ => rfl
  | a :: as, [], c, h, _ => by simp [lexLe] at h
  | a :: as, b :: bs, [], _, h => by simp [lexLe] at h
  | a :: as, b :: bs, c :: cs, h1, h2 => by
    by_cases hac : a < c
    · simp [lexLe, hac]
    · by_cases hab : a < b
      · by_cases hbc : b < c
        · exact absurd (lt_trans hab hbc) hac
        · by_cases hcb : c < b
          · simp [lexLe, hbc, hcb] at h2
          · have hbc' : b = c := le_antisymm (not_lt.mp hcb) (not_lt.mp hbc)
            exact absurd (hbc' ▸ hab) hac
      · by_cases hba : b < a
        · simp [lexLe, hab, hba] at h1
        · have hab' : a = b := le_antisymm (not_lt.mp hba) (not_lt.mp hab)
          subst hab'
          by_cases hca : c < a
          · simp [lexLe, hac, hca] at h2
          · have hac' : a = c := le_antisymm (not_lt.mp hca) (not_lt.mp hac)
            subst hac'
            simp only [lexLe, lt_irrefl, if_neg (lt_irrefl a), if_false] at h1 h2 ⊢
            exact lexLe_trans as bs cs h1 h2

/-- ORDER BY published DESC as a relation on rows: a may come before b when
the published date of b is at most that of a. -/
def publishedDesc (a b : Row) : Prop := lexLe b.published.toList a.published.toList = true

instance : DecidableRel publishedDesc := fun a b => by
  unfold publishedDesc; infer_instance

instance : IsTotal Row publishedDesc :=
  ⟨fun a b => lexLe_total b.published.toList a.published.toList⟩

instance : IsTrans Row publishedDesc :=
  ⟨fun _ _ _ hab hbc => lexLe_trans _ _ _ hbc hab⟩

/-- ORDER BY published DESC over a result set (a stable sort realizing the
SQL ordering clause shared by the three read queries of database.py). -/
def orderByPublishedDesc (rows : List Row) : List Row :=
  List.insertionSort publishedDesc rows

/-- Comparison date(published) >= cutoff of the SQL date filter, where cutoff
stands for date(now, -N days); on the ISO dates this program stores, the SQL
date comparison is the lexicographic comparison of the strings. -/
def dateGE (published cutoff : String) : Bool :=
  lexLe cutoff.toList published.toList

/-- PaperDatabase.get_unprocessed_papers (database.py lines 111 to 121):
SELECT * FROM papers WHERE processed = 0 ORDER BY published DESC, with a
LIMIT clause appended only when the Python value limit is truthy (so None and
0 add no clause), and a negative LIMIT meaning unbounded in sqlite. -/
def get_unprocessed_papers (store : List Row) (limit : Option Int) : List Row :=
  let rows := orderByPublishedDesc (store.filter (fun r => !r.processed))
  match limit with
  | none => rows
  | some n => if n == 0 then rows else if n < 0 then rows else rows.take n.toNat

/-- Prefix test on character lists (first argument is the candidate start of
the second). -/
def startsWith : List Char → List Char → Bool
  | [], _ => true
  | _ :: _, [] => false
  | a :: as, b :: bs => a == b && startsWith as bs

/-- Substring containment on character lists. -/
def containsSub (needle : List Char) : List Char → Bool
  | [] => startsWith needle []
  | c :: cs => startsWith needle (c :: cs) || containsSub needle cs

/-- ASCII lowercase folding: the case folding sqlite LIKE applies to ASCII. -/
def asciiLower (c : Char) : Char :=
  if 'A' ≤ c ∧ c ≤ 'Z' then Char.ofNat (c.toNat + 32) else c

/-- Escaping of one character inside a JSON string literal as json.dumps
writes it (quote and backslash escaped; control characters do not occur in
the category names this program compares). -/
def jsonEscapeChar (c : Char) : List Char :=
  if c = Char.ofNat 34 ∨ c = Char.ofNat 92 then [Char.ofNat 92, c] else [c]

/-- JSON string literal for s, as a character list. -/
def jsonStringChars (s : String) : List Char :=
  Char.ofNat 34 :: (s.toList.flatMap jsonEscapeChar) ++ [Char.ofNat 34]

/-- Comma-space separated concatenation, as json.dumps writes list items. -/
def sepByComma : List (List Char) → List Char
  | [] => []
  | [x] => x
  | x :: y :: rest => x ++ [',', ' '] ++ sepByComma (y :: rest)

/-- Serialized text json.dumps produces for a list of strings, which is what
the attack_categories column holds after save_papers. -/
def jsonDumpsList (xs : List String) : List Char :=
  '[' :: sepByComma (xs.map jsonStringChars) ++ [']']

/-- Filter attack_categories LIKE the pattern built from the category
(database.py line 149): substring search for the quoted category inside the
serialized list, with the ASCII case folding of sqlite LIKE; a NULL column
never matches (NULL LIKE p is NULL, which the WHERE clause drops). -/
def categoryLike (cats : Option (List String)) (category : String) : Bool :=
  match cats with
  | none => false
  | some xs =>
    containsSub ((jsonStringChars category).map asciiLower)
      ((jsonDumpsList xs).map asciiLower)

/-- PaperDatabase.get_papers_by_category (database.py lines 143 to 179):
SELECT * FROM papers WHERE processed = 1 AND attack_categories LIKE ?, plus
the optional date filter (cutoff = date(now, -days) when days is truthy),
ORDER BY published DESC. -/
def get_papers_by_category (store : List Row) (category : String)
    (cutoff : Option String) : List Row :=
  orderByPublishedDesc (store.filter (fun r =>
    r.processed && categoryLike r.attack_categories category &&
      (match cutoff with
       | none => true
       | some c => dateGE r.published c)))

/-- Filter relevance_score >= m: a NULL score never passes (NULL >= m is NULL,
which the WHERE clause drops). -/
def relevanceGE (score : Option Int) (m : Int) : Bool :=
  match score with
  | none => false
  | some s => m ≤ s

/-- PaperDatabase.get_recent_papers (database.py lines 181 to 220):
SELECT * FROM papers WHERE processed = 1 AND date(published) >= date(now, ?)
with the optional relevance filter AND relevance_score >= ?, ORDER BY
published DESC. -/
def get_recent_papers (store : List Row) (cutoff : String)
    (min_relevance : Option Int) : List Row :=
  orderByPublishedDesc (store.filter (fun r =>
    r.processed && dateGE r.published cutoff &&
      (match min_relevance with
       | none => true
       | some m => relevanceGE r.relevance_score m)))

/-- Split of a character list at a separator, matching the Python str.split
used on the entry URL (every occurrence splits, empty pieces kept). -/
def splitChar (c : Char) : List Char → List (List Char)
  | [] => [[]]
  | x :: xs =>
    let rest := splitChar c xs
    if x = c then [] :: rest
    else match rest with
      | [] => [[x]]
      | r :: rs => (x :: r) :: rs

/-- Trailing path segment of a URL: entry_id.split with the slash separator,
last element (arxiv_collector.py line 57). -/
def lastSegment (s : String) : String :=
  String.mk ((splitChar '/' s.toList).getLastD [])

/-- One result yielded by the external arxiv client iterator, with the fields
fetch_papers reads; the date fields already carry the strftime format the
collector applies. -/
structure ArxivResult where
  entry_id : String
  title : String
  authors : List String
  summary : String
  published : String
  updated : String
  categories : List String
  pdf_url : String
deriving DecidableEq

/-- Paper dict built for one arxiv result (arxiv_collector.py lines 56 to 68):
the raw descriptive keys plus processed = False and processed_at = None; no
enrichment keys are present. -/
def normalize_result (r : ArxivResult) : Paper :=
  { id := lastSegment r.entry_id
    upd := { title := some r.title
             authors := some r.authors
             summary := some r.summary
             published := some r.published
             updated := some r.updated
             arxiv_categories := some r.categories
             pdf_url := some r.pdf_url
             abstract_url := some ("https://arxiv.org/abs/" ++ lastSegment r.entry_id)
             processed := some false
             processed_at := some none } }

/-- ArxivCollector.fetch_papers (arxiv_collector.py lines 34 to 72).  The
external client iterator is passed in: ok with the yielded results, or error
when the client raises irrecoverably.  fetch_papers has no exception handler,
so a client error propagates out of the collector unchanged. -/
def fetch_papers (results : Except String (List ArxivResult)) :
    Except String (List Paper) :=
  match results with
  | .error e => .error e
  | .ok rs => .ok (rs.map normalize_result)

/-- run_collection (main.py lines 32 to 51): fetch, then save to the store;
any exception raised by the fetch or the save is caught here, logged, and an
empty list is returned with the store untouched.  On success the fetched
papers and the updated store are returned. -/
def run_collection (now : String) (store : List Row)
    (results : Except String (List ArxivResult)) : List Paper × List Row :=
  match fetch_papers results with
  | .error _ => ([], store)
  | .ok papers =>
    match save_papers now store papers with
    | none => ([], store)
    | some (store1, _) => (papers, store1)

/-- Structured result extracted from the JSON object the LLM returns, with
each of the four expected keys optional (absent key versus present value);
values carry the types the prompt contract prescribes. -/
structure ParsedResult where
  brief_overview : Option String := none
  technical_explanation : Option String := none
  categories : Option (List String) := none
  relevance_score : Option Int := none
deriving DecidableEq

/-- Python str.find: index of the first occurrence or minus one. -/
def pyFind (cs : List Char) (c : Char) : Int :=
  match cs.findIdx? (fun x => x == c) with
  | some i => (i : Int)
  | none => -1

/-- Python str.rfind: index of the last occurrence or minus one. -/
def pyRfind (cs : List Char) (c : Char) : Int :=
  match cs.reverse.findIdx? (fun x => x == c) with
  | some j => ((cs.length - 1 - j : Nat) : Int)
  | none => -1

/-- Brace span extraction of PaperProcessor._parse_response (paper_processor.py
lines 156 to 161): start_idx = response.find of the opening brace, end_idx =
response.rfind of the closing brace plus one; the slice is returned when
start_idx >= 0 and end_idx > 0, and none otherwise (the ValueError branch). -/
def extractJsonSpan (response : String) : Option String :=
  let cs := response.toList
  let start_idx := pyFind cs '\x7b'
  let end_idx := pyRfind cs '\x7d' + 1
  if 0 ≤ start_idx ∧ 0 < end_idx then
    some (String.mk ((cs.drop start_idx.toNat).take (end_idx.toNat - start_idx.toNat)))
  else none

/-- PaperProcessor._parse_response (paper_processor.py lines 153 to 176):
extract the brace span and hand it to json.loads (the jsonLoads parameter,
whose error is the JSONDecodeError message).  A missing span raises ValueError
with the message below; the required-field validation only logs a warning and
never rejects the parsed object. -/
def parse_response (jsonLoads : String → Except String ParsedResult)
    (response : String) : Except String ParsedResult :=
  match extractJsonSpan response with
  | none => .error "No JSON found in response"
  | some span =>
    match jsonLoads span with
    | .ok result => .ok result
    | .error e => .error e

/-- Prompt template of PaperProcessor._create_prompt (paper_processor.py lines
101 to 122) instantiated with title, joined authors and abstract. -/
def promptText (title : String) (authors : List String) (summary : String) : String :=
  "\n        You are an expert in AI security and AI red teaming research. Analyze this research paper and provide:\n        \n        1. A brief overview (2-3 sentences summarizing the paper main contribution)\n        2. A technical explanation (5-7 sentences explaining the key technical details)\n        3. Categorization by attack type (choose the most relevant categories from: prompt injection, jailbreaking, adversarial examples, \n           model extraction, data poisoning, model backdoor attacks, privacy attacks, model stealing, \n           reward hacking, social engineering, or any other relevant category). They must be related to AI Red teaming research specifically. \n        4. Relevance score for AI red teaming (1-10, with 10 being most relevant)\n        \n        Paper Title: " ++
    title ++ "\n        Authors: " ++ String.intercalate ", " authors ++
    "\n        Abstract: " ++ summary ++
    "\n        \n        Return ONLY a JSON object with these keys:\n        \x7b\n          \"brief_overview\": \"...\",\n          \"technical_explanation\": \"...\",\n          \"categories\": [\"category1\", \"category2\"],\n          \"relevance_score\": number\n        \x7d\n        "

/-- PaperProcessor._create_prompt as called from _process_batch: the paper
dict is subscripted for title, authors and summary, so a missing key raises
KeyError (caught by the per-paper handler of _process_batch). -/
def create_prompt (p : Paper) : Except String String :=
  match p.upd.title, p.upd.authors, p.upd.summary with
  | some t, some aus, some s => .ok (promptText t aus s)
  | _, _, _ => .error "KeyError"

/-- Enrichment write-back of _process_batch on a successful parse
(paper_processor.py lines 80 to 87): the four content keys with their dict
get defaults, processed set to True and processed_at set to the current
time. -/
def enrich_result (now : String) (parsed : ParsedResult) (u : PaperUpdate) :
    PaperUpdate :=
  { u with
    brief_overview := some (some (parsed.brief_overview.getD "Not provided"))
    technical_explanation := some (some (parsed.technical_explanation.getD "Not provided"))
    attack_categories := some (some (parsed.categories.getD ["unclassified"]))
    relevance_score := some (some (parsed.relevance_score.getD 0))
    processed := some true
    processed_at := some (some now) }

/-- Per-paper body of PaperProcessor._process_batch (paper_processor.py lines
62 to 95): skip when the processed key is truthy; otherwise build the prompt,
call the LLM (the llm parameter; error is a raised API exception message) and
parse the response.  Any exception on the way is caught and recorded by
setting only the processing_error key. -/
def process_one (llm : String → Except String String)
    (jsonLoads : String → Except String ParsedResult) (now : String)
    (paper : Paper) : Paper :=
  if paper.upd.processed.getD false then paper
  else
    match create_prompt paper with
    | .error e => { paper with upd := { paper.upd with processing_error := some (some e) } }
    | .ok prompt =>
      match llm prompt with
      | .error e => { paper with upd := { paper.upd with processing_error := some (some e) } }
      | .ok response =>
        match parse_response jsonLoads response with
        | .error e => { paper with upd := { paper.upd with processing_error := some (some e) } }
        | .ok parsed => { paper with upd := enrich_result now parsed paper.upd }

/-- PaperProcessor._process_batch (paper_processor.py lines 58 to 97): the
for loop appends exactly one output per input, in order. -/
def process_batch (llm : String → Except String String)
    (jsonLoads : String → Except String ParsedResult) (now : String)
    (batch : List Paper) : List Paper :=
  batch.map (process_one llm jsonLoads now)

/-- Batch loop of PaperProcessor.process_papers (paper_processor.py lines 44
to 54): slices of batch_size papers processed in order; the returned number
counts the inter-batch sleep calls (time.sleep runs only when another batch
follows).  Fuel equals the input length, enough for any positive batch
size. -/
def process_papers_aux (llm : String → Except String String)
    (jsonLoads : String → Except String ParsedResult) (now : String)
    (batch_size : Nat) : Nat → List Paper → List Paper × Nat
  | 0, _ => ([], 0)
  | _ + 1, [] => ([], 0)
  | fuel + 1, p :: ps =>
    let batch := (p :: ps).take batch_size
    let rest := (p :: ps).drop batch_size
    let done := process_batch llm jsonLoads now batch
    if rest.isEmpty then (done, 0)
    else
      let tail := process_papers_aux llm jsonLoads now batch_size fuel rest
      (done ++ tail.1, tail.2 + 1)

/-- PaperProcessor.process_papers (paper_processor.py lines 35 to 56): the
processed sequence together with the number of inter-batch delays taken. -/
def process_papers (llm : String → Except String String)
    (jsonLoads : String → Except String ParsedResult) (now : String)
    (batch_size : Nat) (papers : List Paper) : List Paper × Nat :=
  process_papers_aux llm jsonLoads now batch_size papers.length papers

/-- Slices papers i to i + batch_size of the batching loop, in order. -/
def chunksAux (batch_size : Nat) : Nat → List Paper → List (List Paper)
  | 0, _ => []
  | _ + 1, [] => []
  | fuel + 1, p :: ps =>
    (p :: ps).take batch_size :: chunksAux batch_size fuel ((p :: ps).drop batch_size)

/-- Partition of the input into the consecutive batches the loop of
process_papers visits. -/
def chunks (batch_size : Nat) (papers : List Paper) : List (List Paper) :=
  chunksAux batch_size papers.length papers

/-- Number of stored rows keyed by a given id. -/
def idCount (store : List Row) (i : String) : Nat :=
  store.countP (fun r => r.id == i)

/-- Row r carries every value the dict u supplies: for each key present in u,
the corresponding field of r equals the supplied value. -/
def Reflects (r : Row) (u : PaperUpdate) : Prop :=
  (∀ v, u.title = some v → r.title = v) ∧
  (∀ v, u.authors = some v → r.authors = v) ∧
  (∀ v, u.summary = some v → r.summary = v) ∧
  (∀ v, u.published = some v → r.published = v) ∧
  (∀ v, u.updated = some v → r.updated = v) ∧
  (∀ v, u.arxiv_categories = some v → r.arxiv_categories = v) ∧
  (∀ v, u.pdf_url = some v → r.pdf_url = v) ∧
  (∀ v, u.abstract_url = some v → r.abstract_url = v) ∧
  (∀ v, u.brief_overview = some v → r.brief_overview = v) ∧
  (∀ v, u.technical_explanation = some v → r.technical_explanation = v) ∧
  (∀ v, u.attack_categories = some v → r.attack_categories = v) ∧
  (∀ v, u.relevance_score = some v → r.relevance_score = v) ∧
  (∀ v, u.processed = some v → r.processed = v) ∧
  (∀ v, u.processed_at = some v → r.processed_at = v) ∧
  (∀ v, u.processing_error = some v → r.processing_error = v)

theorem applyUpdate_id (r : Row) (u : PaperUpdate) : (applyUpdate r u).id = r.id := rfl

theorem reflects_applyUpdate (r : Row) (u : PaperUpdate) :
    Reflects (applyUpdate r u) u := by
  refine ⟨?_, ?_, ?_, ?_, ?_, ?_, ?_, ?_, ?_, ?_, ?_, ?_, ?_, ?_, ?_⟩ <;>
    (intro v hv; simp [applyUpdate, hv])

theorem insertable_not_isEmpty (p : Paper) (h : p.insertable = true) :
    p.upd.isEmpty = false := by
  simp only [Paper.insertable, Bool.and_eq_true] at h
  simp only [PaperUpdate.isEmpty, Bool.and_eq_false_iff]
  rcases hx : p.upd.title with _ | t
  · rw [hx] at h; simp at h
  · simp [hx]

theorem rowOfInsert_of_insertable (now : String) (p : Paper) (h : p.insertable = true) :
    ∃ row, rowOfInsert now p = some row ∧ row.id = p.id := by
  simp only [Paper.insertable, Bool.and_eq_true, Option.isSome_iff_exists] at h
  obtain ⟨⟨⟨⟨⟨⟨⟨⟨t, ht⟩, au, hau⟩, s, hs⟩, pub, hpub⟩, up, hup⟩, ac, hac⟩, pu, hpu⟩, ab, hab⟩ := h
  unfold rowOfInsert
  rw [ht, hau, hs, hpub, hup, hac, hpu, hab]
  exact ⟨_, rfl, rfl⟩

theorem updOne_id (r : Row) (i : String) (u : PaperUpdate) :
    (if r.id == i then applyUpdate r u else r).id = r.id := by
  split <;> rfl

theorem updMap_map_id (store : List Row) (i : String) (u : PaperUpdate) :
    (store.map (fun r => if r.id == i then applyUpdate r u else r)).map Row.id
      = store.map Row.id := by
  induction store with
  | nil => rfl
  | cons r rest ih => simp only [List.map_cons, ih, updOne_id]

theorem updMap_any (store : List Row) (i : String) (u : PaperUpdate) (j : String) :
    (store.map (fun r => if r.id == i then applyUpdate r u else r)).any
        (fun r => r.id == j)
      = store.any (fun r => r.id == j) := by
  induction store with
  | nil => rfl
  | cons r rest ih => simp only [List.map_cons, List.any_cons, ih, updOne_id]

theorem updMap_idCount (store : List Row) (i : String) (u : PaperUpdate) (j : String) :
    idCount (store.map (fun r => if r.id == i then applyUpdate r u else r)) j
      = idCount store j := by
  induction store with
  | nil => rfl
  | cons r rest ih =>
    simp only [idCount] at ih ⊢
    simp only [List.map_cons, List.countP_cons, updOne_id, ih]

theorem updMap_reflects (store : List Row) (i : String) (u : PaperUpdate) :
    ∀ r ∈ store.map (fun r => if r.id == i then applyUpdate r u else r),
      r.id = i → Reflects r u := by
  intro r hr hid
  obtain ⟨r0, _, hr0⟩ := List.mem_map.mp hr
  by_cases h : (r0.id == i) = true
  · rw [if_pos h] at hr0
    exact hr0 ▸ reflects_applyUpdate r0 u
  · rw [if_neg h] at hr0
    subst hr0
    exact absurd (beq_iff_eq.mpr hid) h

theorem idCount_pos_of_any (store : List Row) (i : String)
    (h : store.any (fun r => r.id == i) = true) : 0 < idCount store i := by
  obtain ⟨r, hr, hri⟩ := List.any_eq_true.mp h
  exact List.countP_pos_iff.mpr ⟨r, hr, hri⟩

theorem idCount_eq_zero_of_not_any (store : List Row) (i : String)
    (h : store.any (fun r => r.id == i) = false) : idCount store i = 0 := by
  refine List.countP_eq_zero.mpr ?_
  exact List.any_eq_false.mp h

theorem idCount_le_one_of_nodup (store : List Row) (i : String)
    (h : (store.map Row.id).Nodup) : idCount store i ≤ 1 := by
  induction store with
  | nil => simp [idCount]
  | cons r rest ih =>
    simp only [List.map_cons, List.nodup_cons] at h
    obtain ⟨hnotin, hrest⟩ := h
    by_cases hr : r.id = i
    · have hzero : idCount rest i = 0 := by
        refine List.countP_eq_zero.mpr ?_
        intro x hx hxi
        have hxi2 : x.id = i := by simpa using hxi
        have : r.id ∈ List.map Row.id rest := by
          rw [hr, ← hxi2]
          exact List.mem_map.mpr ⟨x, hx, rfl⟩
        exact hnotin this
      have hz : List.countP (fun x => x.id == i) rest = 0 := by
        simpa [idCount] using hzero
      simp [idCount, List.countP_cons, hr, hz]
    · have hstep : idCount (r :: rest) i = idCount rest i := by
        simp [idCount, List.countP_cons, hr]
      rw [hstep]
      exact ih hrest

/-- Claim C1: for every store whose ids are unique and every pair of
well-formed paper dicts sharing one id, upserting the first and then the
second (two calls to save_papers, the second modelling a re-collection of the
same external identifier) leaves exactly one stored row keyed by that id, the
id uniqueness invariant still holds (no duplicate row is created), and that
row carries every value the latest payload supplied. -/
theorem upsert_twice_single_row (now1 now2 : String) (store : List Row) (p q : Paper)
    (hnodup : (store.map Row.id).Nodup) (hid : p.id = q.id)
    (hp : p.insertable = true) (hq : q.insertable = true) :
    ∃ s1 s2, save_papers now1 store [p] = some (s1, 1) ∧
      save_papers now2 s1 [q] = some (s2, 1) ∧
      idCount s2 p.id = 1 ∧ (s2.map Row.id).Nodup ∧
      ∀ r ∈ s2, r.id = p.id → Reflects r q.upd := by
  have step2 : ∀ s1 : List Row, save_one now1 store p = some s1 →
      s1.any (fun r => r.id == p.id) = true → idCount s1 p.id = 1 →
      (s1.map Row.id).Nodup →
      ∃ s1' s2, save_papers now1 store [p] = some (s1', 1) ∧
        save_papers now2 s1' [q] = some (s2, 1) ∧
        idCount s2 p.id = 1 ∧ (s2.map Row.id).Nodup ∧
        ∀ r ∈ s2, r.id = p.id → Reflects r q.upd := by
    intro s1 hsave1 ha1 hc1 hn1
    have ha1q : s1.any (fun r => r.id == q.id) = true := by
      rw [← hid]; exact ha1
    refine ⟨s1, s1.map (fun r => if r.id == q.id then applyUpdate r q.upd else r),
      ?_, ?_, ?_, ?_, ?_⟩
    · simp [save_papers, save_loop, hsave1]
    · simp [save_papers, save_loop, save_one, ha1q, insertable_not_isEmpty q hq]
    · rw [updMap_idCount]; exact hc1
    · rw [updMap_map_id]; exact hn1
    · intro r hr hrid
      exact updMap_reflects s1 q.id q.upd r hr (hrid.trans hid)
  by_cases hex : store.any (fun r => r.id == p.id) = true
  · refine step2 (store.map (fun r => if r.id == p.id then applyUpdate r p.upd else r))
      ?_ ?_ ?_ ?_
    · simp [save_one, hex, insertable_not_isEmpty p hp]
    · rw [updMap_any]; exact hex
    · rw [updMap_idCount]
      exact Nat.le_antisymm (idCount_le_one_of_nodup store _ hnodup)
        (idCount_pos_of_any store _ hex)
    · rw [updMap_map_id]; exact hnodup
  · obtain ⟨row, hrow, hrowid⟩ := rowOfInsert_of_insertable now1 p hp
    have hexf : store.any (fun r => r.id == p.id) = false := by
      simpa using hex
    have hnotin : p.id ∉ store.map Row.id := by
      intro hmem
      obtain ⟨x, hx, hxid⟩ := List.mem_map.mp hmem
      have hxf := List.any_eq_false.mp hexf x hx
      exact hxf (by simp [hxid])
    refine step2 (store ++ [row]) ?_ ?_ ?_ ?_
    · simp [save_one, hexf, hrow]
    · simp [List.any_append, hrowid]
    · rw [idCount, List.countP_append]
      have h0 : idCount store p.id = 0 := idCount_eq_zero_of_not_any store _ hexf
      rw [idCount] at h0
      simp [h0, hrowid]
    · rw [List.map_append, List.nodup_append_comm]
      simp only [List.map_cons, List.map_nil, List.singleton_append, List.nodup_cons]
      refine ⟨?_, hnodup⟩
      rw [hrowid]
      exact hnotin

/-- Sample enriched stored row used in concrete instances. -/
def enrichedRow : Row :=
  { id := "2301.00001v1", title := "Prompt Injection Study", authors := ["Ada Lovelace"],
    summary := "A study of prompt injection.", published := "2023-01-01",
    updated := "2023-01-02", arxiv_categories := ["cs.AI"],
    pdf_url := "http://arxiv.org/pdf/2301.00001v1",
    abstract_url := "https://arxiv.org/abs/2301.00001v1",
    brief_overview := some "overview", technical_explanation := some "tech",
    attack_categories := some ["jailbreaking"], relevance_score := some 9,
    processed := true, processed_at := some "2023-02-01T00:00:00",
    processing_error := none, created_at := "2023-01-03" }

/-- Sample arxiv result re-collecting the same identifier as enrichedRow. -/
def recollectedResult : ArxivResult :=
  { entry_id := "http://arxiv.org/abs/2301.00001v1", title := "Prompt Injection Study",
    authors := ["Ada Lovelace"], summary := "A study of prompt injection.",
    published := "2023-01-01", updated := "2023-01-02", categories := ["cs.AI"],
    pdf_url := "http://arxiv.org/pdf/2301.00001v1" }

/-- Collector payload produced for the sample result. -/
def collectedPaper : Paper := normalize_result recollectedResult

/-- Second collection of the same identifier with a revised title. -/
def collectedPaperV2 : Paper :=
  { collectedPaper with
    upd := { collectedPaper.upd with title := some "Prompt Injection Study v2" } }

/-- Concrete instance of the C1 theorem: inserting a collected payload into an
empty store and then upserting a revised payload with the same id. -/
theorem upsert_twice_single_row_witness :
    (([] : List Row).map Row.id).Nodup ∧ collectedPaper.id = collectedPaperV2.id ∧
    collectedPaper.insertable = true ∧ collectedPaperV2.insertable = true ∧
    (∃ s1 s2, save_papers "t1" [] [collectedPaper] = some (s1, 1) ∧
      save_papers "t2" s1 [collectedPaperV2] = some (s2, 1) ∧
      idCount s2 collectedPaper.id = 1 ∧ (s2.map Row.id).Nodup ∧
      ∀ r ∈ s2, r.id = collectedPaper.id → Reflects r collectedPaperV2.upd) :=
  ⟨by decide, by decide, by decide, by decide,
   upsert_twice_single_row "t1" "t2" [] collectedPaper collectedPaperV2
     (by decide) (by decide) (by decide) (by decide)⟩

/-- Claim C2 (code defect): re-collecting an already enriched record runs the
UPDATE branch of save_papers with the freshly collected payload, and that
payload contains the keys processed = False and processed_at = None
(arxiv_collector.py lines 66 and 67), so the upsert resets the enriched flag
and the enrichment timestamp of the stored row; the four content fields
survive only because the collected dict carries no keys for them.  The stated
lifecycle says a re-collection upsert must leave the enrichment state of an
Enriched record unchanged, so the code contradicts the claim here. -/
theorem recollection_resets_enrichment_state :
    save_papers "2023-03-01T00:00:00" [enrichedRow] [collectedPaper]
        = some ([{ enrichedRow with processed := false, processed_at := none }], 1) ∧
    enrichedRow.processed = true ∧
    enrichedRow.processed_at = some "2023-02-01T00:00:00" ∧
    ({ enrichedRow with processed := false, processed_at := none } : Row).brief_overview
        = some "overview" ∧
    ({ enrichedRow with processed := false, processed_at := none } : Row).technical_explanation
        = some "tech" ∧
    ({ enrichedRow with processed := false, processed_at := none } : Row).attack_categories
        = some ["jailbreaking"] ∧
    ({ enrichedRow with processed := false, processed_at := none } : Row).relevance_score
        = some 9 := by decide

/-- Claim C3: for every raw record whose LLM call succeeds but whose response
has no parseable JSON span (no brace span at all, or a span json.loads rejects
with its nonempty exception message), the per-record handler of
_process_batch leaves the record unenriched and writes only processing_error:
the result is the input dict with processing_error set to the nonempty
failure description and every other key, the processed flag included, exactly
as before the call. -/
theorem parse_failure_leaves_record_raw
    (llm : String → Except String String)
    (jsonLoads : String → Except String ParsedResult) (now : String)
    (paper : Paper) (prompt response : String)
    (hraw : paper.upd.processed.getD false = false)
    (hpr : create_prompt paper = Except.ok prompt)
    (hllm : llm prompt = Except.ok response)
    (hfail : extractJsonSpan response = none ∨
      ∃ span m, extractJsonSpan response = some span ∧
        jsonLoads span = Except.error m ∧ m ≠ "") :
    ∃ e, e ≠ "" ∧
      process_one llm jsonLoads now paper
        = { paper with upd := { paper.upd with processing_error := some (some e) } } ∧
      (process_one llm jsonLoads now paper).upd.processed = paper.upd.processed := by
  obtain h | ⟨span, m, hspan, hm, hne⟩ := hfail
  · refine ⟨"No JSON found in response", by decide, ?_, ?_⟩
    · simp [process_one, hraw, hpr, hllm, parse_response, h]
    · simp [process_one, hraw, hpr, hllm, parse_response, h]
  · refine ⟨m, hne, ?_, ?_⟩
    · simp [process_one, hraw, hpr, hllm, parse_response, hspan, hm]
    · simp [process_one, hraw, hpr, hllm, parse_response, hspan, hm]

/-- Raw paper dict as the processing run reads it back from the store: every
column key present, enrichment values None, processed False. -/
def rawPaper : Paper :=
  { id := "2301.00001v1",
    upd := { title := some "Prompt Injection Study", authors := some ["Ada Lovelace"],
             summary := some "A study of prompt injection.",
             published := some "2023-01-01", updated := some "2023-01-02",
             arxiv_categories := some ["cs.AI"],
             pdf_url := some "http://arxiv.org/pdf/2301.00001v1",
             abstract_url := some "https://arxiv.org/abs/2301.00001v1",
             brief_overview := some none, technical_explanation := some none,
             attack_categories := some none, relevance_score := some none,
             processed := some false, processed_at := some none,
             processing_error := some none } }

/-- LLM stub that answers with prose containing no braces. -/
def refusalLlm : String → Except String String :=
  fun _ => Except.ok "I cannot produce structured output."

/-- json.loads stub that rejects every input with the usual decoder message. -/
def strictJsonLoads : String → Except String ParsedResult :=
  fun _ => Except.error "Expecting value: line 1 column 1 (char 0)"

/-- Concrete instance of the C3 theorem: a brace-free response leaves the raw
sample paper unenriched with only processing_error written. -/
theorem parse_failure_leaves_record_raw_witness :
    rawPaper.upd.processed.getD false = false ∧
    create_prompt rawPaper
      = Except.ok (promptText "Prompt Injection Study" ["Ada Lovelace"]
          "A study of prompt injection.") ∧
    refusalLlm (promptText "Prompt Injection Study" ["Ada Lovelace"]
        "A study of prompt injection.")
      = Except.ok "I cannot produce structured output." ∧
    extractJsonSpan "I cannot produce structured output." = none ∧
    (∃ e, e ≠ "" ∧
      process_one refusalLlm strictJsonLoads "t" rawPaper
        = { rawPaper with upd := { rawPaper.upd with processing_error := some (some e) } } ∧
      (process_one refusalLlm strictJsonLoads "t" rawPaper).upd.processed
        = rawPaper.upd.processed) :=
  ⟨by decide, rfl, rfl, by decide,
   parse_failure_leaves_record_raw refusalLlm strictJsonLoads "t" rawPaper _ _
     (by decide) rfl rfl (Or.inl (by decide))⟩

/-- LLM stub answering with a JSON object span. -/
def braceLlm : String → Except String String :=
  fun _ => Except.ok "\x7b\"categories\": []\x7d"

/-- json.loads stub returning an object whose categories key is present but
empty, with the other three keys populated. -/
def emptyCatsJsonLoads : String → Except String ParsedResult :=
  fun _ => Except.ok { brief_overview := some "An overview.",
                       technical_explanation := some "Details.",
                       categories := some [], relevance_score := some 7 }

/-- Claim C4 counterexample: when the parsed object carries the categories
key with an empty sequence, the dict get default does not apply, so the code
stores the empty list instead of the claimed unclassified default. -/
theorem empty_categories_not_defaulted :
    (process_one braceLlm emptyCatsJsonLoads "t" rawPaper).upd.attack_categories
        = some (some []) ∧
    some (some ([] : List String)) ≠ some (some ["unclassified"]) := by decide

/-- Claim C4 (amended): on a successfully parsed response the enrichment write
sets brief_overview and technical_explanation (default Not provided when the
key is missing), sets attack_categories to the parsed categories value
whenever the key is present — the empty list included — and to the
unclassified singleton only when the key is missing, sets relevance_score to
0 when missing, sets processed to true, and sets processed_at to the current
(non-null) timestamp. -/
theorem enrichment_success_field_writes
    (llm : String → Except String String)
    (jsonLoads : String → Except String ParsedResult) (now : String)
    (paper : Paper) (prompt response : String) (parsed : ParsedResult)
    (hraw : paper.upd.processed.getD false = false)
    (hpr : create_prompt paper = Except.ok prompt)
    (hllm : llm prompt = Except.ok response)
    (hparse : parse_response jsonLoads response = Except.ok parsed) :
    process_one llm jsonLoads now paper
      = { paper with upd := { paper.upd with
            brief_overview := some (some (parsed.brief_overview.getD "Not provided")),
            technical_explanation :=
              some (some (parsed.technical_explanation.getD "Not provided")),
            attack_categories := some (some (parsed.categories.getD ["unclassified"])),
            relevance_score := some (some (parsed.relevance_score.getD 0)),
            processed := some true,
            processed_at := some (some now) } } := by
  simp [process_one, hraw, hpr, hllm, hparse, enrich_result]

/-- Parsed object with all four keys populated. -/
def goodParsed : ParsedResult :=
  { brief_overview := some "An overview.", technical_explanation := some "Details.",
    categories := some ["jailbreaking", "prompt injection"], relevance_score := some 9 }

/-- json.loads stub returning all four keys populated. -/
def goodJsonLoads : String → Except String ParsedResult :=
  fun _ => Except.ok goodParsed

/-- Concrete instance of the amended C4 theorem on the raw sample paper. -/
theorem enrichment_success_field_writes_witness :
    rawPaper.upd.processed.getD false = false ∧
    create_prompt rawPaper
      = Except.ok (promptText "Prompt Injection Study" ["Ada Lovelace"]
          "A study of prompt injection.") ∧
    braceLlm (promptText "Prompt Injection Study" ["Ada Lovelace"]
        "A study of prompt injection.")
      = Except.ok "\x7b\"categories\": []\x7d" ∧
    parse_response goodJsonLoads "\x7b\"categories\": []\x7d" = Except.ok goodParsed ∧
    process_one braceLlm goodJsonLoads "t" rawPaper
      = { rawPaper with upd := { rawPaper.upd with
            brief_overview := some (some "An overview."),
            technical_explanation := some (some "Details."),
            attack_categories := some (some ["jailbreaking", "prompt injection"]),
            relevance_score := some (some 9),
            processed := some true,
            processed_at := some (some "t") } } :=
  ⟨by decide, rfl, rfl, rfl,
   enrichment_success_field_writes braceLlm goodJsonLoads "t" rawPaper _ _ goodParsed
     (by decide) rfl rfl rfl⟩

theorem mem_orderByPublishedDesc (r : Row) (l : List Row) :
    r ∈ orderByPublishedDesc l ↔ r ∈ l :=
  (List.perm_insertionSort publishedDesc l).mem_iff

/-- Claim C5: a record whose processed flag is false is returned by neither
the category-filtered read nor the recency/relevance-filtered read, whatever
its attack_categories and relevance_score fields hold: both WHERE clauses
require processed = 1. -/
theorem unenriched_excluded_from_filtered_reads
    (store : List Row) (r : Row) (category : String)
    (cutoff1 : Option String) (cutoff2 : String) (min_relevance : Option Int)
    (hraw : r.processed = false) :
    r ∉ get_papers_by_category store category cutoff1 ∧
    r ∉ get_recent_papers store cutoff2 min_relevance := by
  constructor
  · intro hmem
    rw [get_papers_by_category, mem_orderByPublishedDesc, List.mem_filter] at hmem
    simp [hraw] at hmem
  · intro hmem
    rw [get_recent_papers, mem_orderByPublishedDesc, List.mem_filter] at hmem
    simp [hraw] at hmem

/-- Unenriched row whose enrichment-shaped fields are nevertheless populated,
for the C5 instance. -/
def sneakyRawRow : Row :=
  { enrichedRow with id := "2301.00002v1", processed := false }

/-- Concrete instance of the C5 theorem: the unenriched row is excluded even
though its attack_categories and relevance_score would pass both filters. -/
theorem unenriched_excluded_from_filtered_reads_witness :
    sneakyRawRow.processed = false ∧
    sneakyRawRow.attack_categories = some ["jailbreaking"] ∧
    sneakyRawRow.relevance_score = some 9 ∧
    sneakyRawRow ∉
      get_papers_by_category [enrichedRow, sneakyRawRow] "jailbreaking" none ∧
    sneakyRawRow ∉
      get_recent_papers [enrichedRow, sneakyRawRow] "2023-01-01" (some 5) :=
  ⟨by decide, by decide, by decide,
   (unenriched_excluded_from_filtered_reads [enrichedRow, sneakyRawRow] sneakyRawRow
      "jailbreaking" none "2023-01-01" (some 5) (by decide)).1,
   (unenriched_excluded_from_filtered_reads [enrichedRow, sneakyRawRow] sneakyRawRow
      "jailbreaking" none "2023-01-01" (some 5) (by decide)).2⟩

theorem relevanceGE_iff (score : Option Int) (m : Int) :
    relevanceGE score m = true ↔ ∃ s, score = some s ∧ m ≤ s := by
  cases score <;> simp [relevanceGE]

/-- Claim C7: with min_relevance 8 the recency read returns exactly the
enriched rows inside the date window whose relevance_score is at least 8, so
the boundary score 8 is included and 7 is excluded. -/
theorem min_relevance_eight_boundary (store : List Row) (cutoff : String) (r : Row) :
    r ∈ get_recent_papers store cutoff (some 8) ↔
      r ∈ store ∧ r.processed = true ∧ dateGE r.published cutoff = true ∧
        ∃ s, r.relevance_score = some s ∧ 8 ≤ s := by
  rw [get_recent_papers, mem_orderByPublishedDesc, List.mem_filter]
  simp only [Bool.and_eq_true, relevanceGE_iff, and_assoc]

/-- Enriched row at the boundary score of 8. -/
def scoreEightRow : Row :=
  { enrichedRow with id := "2301.00003v1", relevance_score := some 8 }

/-- Enriched row just below the boundary, at score 7. -/
def scoreSevenRow : Row :=
  { enrichedRow with id := "2301.00004v1", relevance_score := some 7 }

/-- Concrete instance of the C7 theorem: score 8 is returned, score 7 is
not. -/
theorem min_relevance_eight_boundary_witness :
    scoreEightRow ∈
      get_recent_papers [scoreEightRow, scoreSevenRow] "2023-01-01" (some 8) ∧
    scoreSevenRow ∉
      get_recent_papers [scoreEightRow, scoreSevenRow] "2023-01-01" (some 8) := by
  constructor
  · exact (min_relevance_eight_boundary [scoreEightRow, scoreSevenRow] "2023-01-01"
      scoreEightRow).mpr ⟨by decide, by decide, by decide, 8, by decide, by decide⟩
  · intro h
    obtain ⟨-, -, -, s, hs, hle⟩ :=
      (min_relevance_eight_boundary [scoreEightRow, scoreSevenRow] "2023-01-01"
        scoreSevenRow).mp h
    have hs7 : scoreSevenRow.relevance_score = some 7 := by decide
    rw [hs7] at hs
    obtain rfl : (7 : Int) = s := by simpa using hs
    omega

/-- Unprocessed row with only raw fields populated. -/
def rawOnlyRow : Row :=
  { id := "2301.00005v1", title := "Adversarial Examples Survey",
    authors := ["Grace Hopper"], summary := "A survey.", published := "2023-01-05",
    updated := "2023-01-05", arxiv_categories := ["cs.LG"],
    pdf_url := "http://arxiv.org/pdf/2301.00005v1",
    abstract_url := "https://arxiv.org/abs/2301.00005v1",
    brief_overview := none, technical_explanation := none, attack_categories := none,
    relevance_score := none, processed := false, processed_at := none,
    processing_error := none, created_at := "2023-01-05" }

/-- Claim C9 counterexample: with one unprocessed row stored, a supplied limit
of 0 still returns the row, because the falsy Python value adds no LIMIT
clause; the result length therefore exceeds the supplied limit. -/
theorem limit_zero_does_not_cap :
    ¬ ((get_unprocessed_papers [rawOnlyRow] (some 0)).length ≤ 0) := by decide

/-- Claim C9 (amended): get_unprocessed_papers returns only rows whose
processed flag is false, ordered by published date descending, and a positive
limit caps the result length; a limit of None or 0 (both falsy, so the query
gains no LIMIT clause) and a negative limit (unbounded in sqlite) leave the
result uncapped. -/
theorem unprocessed_query_properties (store : List Row) (limit : Option Int) :
    (∀ r ∈ get_unprocessed_papers store limit, r.processed = false) ∧
    List.Sorted publishedDesc (get_unprocessed_papers store limit) ∧
    (∀ n : Int, limit = some n → 0 < n →
      (get_unprocessed_papers store limit).length ≤ n.toNat) := by
  have hsub : (get_unprocessed_papers store limit).Sublist
      (orderByPublishedDesc (store.filter (fun r => !r.processed))) := by
    rcases limit with _ | n
    · exact List.Sublist.refl _
    · simp only [get_unprocessed_papers]
      split
      · exact List.Sublist.refl _
      · split
        · exact List.Sublist.refl _
        · exact List.take_sublist _ _
  refine ⟨?_, ?_, ?_⟩
  · intro r hr
    have hr2 := hsub.subset hr
    rw [mem_orderByPublishedDesc, List.mem_filter] at hr2
    simpa using hr2.2
  · exact (List.sorted_insertionSort publishedDesc _).sublist hsub
  · intro n hn hpos
    subst hn
    simp only [get_unprocessed_papers]
    rw [if_neg, if_neg]
    · exact List.length_take_le _ _
    · omega
    · simp only [beq_iff_eq]
      omega

/-- Concrete instance of the amended C9 theorem at a positive limit. -/
theorem unprocessed_query_properties_witness :
    (∀ r ∈ get_unprocessed_papers [rawOnlyRow, enrichedRow] (some 3),
      r.processed = false) ∧
    List.Sorted publishedDesc (get_unprocessed_papers [rawOnlyRow, enrichedRow] (some 3)) ∧
    (get_unprocessed_papers [rawOnlyRow, enrichedRow] (some 3)).length ≤ (3 : Int).toNat :=
  ⟨(unprocessed_query_properties [rawOnlyRow, enrichedRow] (some 3)).1,
   (unprocessed_query_properties [rawOnlyRow, enrichedRow] (some 3)).2.1,
   (unprocessed_query_properties [rawOnlyRow, enrichedRow] (some 3)).2.2 3 rfl
     (by decide)⟩

/-- Claim C6 counterexample: an irrecoverable failure of the external client
iterator is not caught anywhere inside ArxivCollector.fetch_papers, so the
collection call raises past the collector boundary instead of returning an
empty sequence there. -/
theorem fetch_error_propagates :
    fetch_papers (Except.error "ConnectionError") = Except.error "ConnectionError" ∧
    fetch_papers (Except.error "ConnectionError") ≠ Except.ok [] :=
  ⟨rfl, fun h => by simp [fetch_papers] at h⟩

/-- Claim C6 (amended): the exception crosses the collector boundary and is
contained one level up, in run_collection of main.py, which catches any
failure of the fetch, logs it, returns an empty sequence, and leaves the
record store unchanged. -/
theorem run_collection_contains_fetch_error (now : String) (store : List Row)
    (e : String) : run_collection now store (Except.error e) = ([], store) := rfl

/-- Concrete instance of the amended C6 theorem. -/
theorem run_collection_contains_fetch_error_witness :
    run_collection "t" [enrichedRow] (Except.error "ConnectionError")
      = ([], [enrichedRow]) :=
  run_collection_contains_fetch_error "t" [enrichedRow] "ConnectionError"

/-- Batch sizes of the slicing loop as a function of the input length. -/
def lenChunks (batch_size : Nat) : Nat → Nat → List Nat
  | 0, _ => []
  | fuel + 1, n =>
    if n = 0 then [] else min batch_size n :: lenChunks batch_size fuel (n - batch_size)

theorem chunksAux_lengths (bs : Nat) : ∀ fuel (ps : List Paper),
    (chunksAux bs fuel ps).map List.length = lenChunks bs fuel ps.length
  | 0, _ => rfl
  | fuel + 1, [] => by simp [chunksAux, lenChunks]
  | fuel + 1, p :: ps => by
    simp [chunksAux, lenChunks, chunksAux_lengths bs fuel, List.length_take,
      List.length_drop]

theorem chunksAux_flatten (bs : Nat) (hbs : 0 < bs) : ∀ fuel (ps : List Paper),
    ps.length ≤ fuel → (chunksAux bs fuel ps).flatten = ps
  | 0, [], _ => rfl
  | 0, p :: ps, h => by simp at h
  | fuel + 1, [], _ => rfl
  | fuel + 1, p :: ps, h => by
    rw [chunksAux]
    simp only [List.flatten_cons]
    rw [chunksAux_flatten bs hbs fuel ((p :: ps).drop bs) (by
      simp only [List.length_drop, List.length_cons]
      simp only [List.length_cons] at h
      omega)]
    exact List.take_append_drop bs (p :: ps)

theorem chunksAux_ne_nil (bs fuel : Nat) (p : Paper) (ps : List Paper) :
    chunksAux bs (fuel + 1) (p :: ps) ≠ [] := by
  rw [chunksAux]
  exact List.cons_ne_nil _ _

theorem processAux_eq_chunks (llm : String → Except String String)
    (jsonLoads : String → Except String ParsedResult) (now : String)
    (bs : Nat) (hbs : 0 < bs) : ∀ fuel (ps : List Paper), ps.length ≤ fuel →
    process_papers_aux llm jsonLoads now bs fuel ps
      = (((chunksAux bs fuel ps).map (process_batch llm jsonLoads now)).flatten,
         (chunksAux bs fuel ps).length - 1)
  | 0, [], _ => rfl
  | 0, p :: ps, h => by simp at h
  | fuel + 1, [], _ => rfl
  | fuel + 1, p :: ps, h => by
    rw [process_papers_aux, chunksAux]
    by_cases hrest : ((p :: ps).drop bs).isEmpty = true
    · have hre : (p :: ps).drop bs = [] := by
        exact List.isEmpty_iff.mp hrest
      have hcr : chunksAux bs fuel ((p :: ps).drop bs) = [] := by
        rw [hre]
        cases fuel <;> rfl
      simp [hrest, hcr]
    · have hlen : ((p :: ps).drop bs).length ≤ fuel := by
        simp only [List.length_drop, List.length_cons]
        simp only [List.length_cons] at h
        omega
      have hrec := processAux_eq_chunks llm jsonLoads now bs hbs fuel
        ((p :: ps).drop bs) hlen
      have hne : (p :: ps).drop bs ≠ [] := by
        intro hc
        rw [hc] at hrest
        exact hrest rfl
      obtain ⟨q, qs, hq⟩ := List.exists_cons_of_ne_nil hne
      have hfuel1 : ∃ f2, fuel = f2 + 1 := by
        rcases fuel with _ | f2
        · have hz : (List.drop bs (p :: ps)).length = 0 := Nat.le_zero.mp hlen
          rw [List.length_eq_zero] at hz
          exact absurd hz hne
        · exact ⟨f2, rfl⟩
      obtain ⟨f2, rfl⟩ := hfuel1
      have hcne : chunksAux bs (f2 + 1) ((p :: ps).drop bs) ≠ [] := by
        rw [hq]
        exact chunksAux_ne_nil bs f2 q qs
      simp only [hrest, Bool.false_eq_true, if_false, hrec, List.map_cons,
        List.flatten_cons, List.length_cons, Prod.mk.injEq]
      refine ⟨trivial, ?_⟩
      have hpos : 0 < (chunksAux bs (f2 + 1) ((p :: ps).drop bs)).length :=
        List.length_pos.mpr hcne
      omega

/-- Claim C8: twelve unenriched records with batch size five are processed as
three consecutive slices of sizes five, five and two, in input order (the
slices concatenate back to the input and the output is the concatenation of
the processed slices), and the inter-batch delay runs exactly twice — between
consecutive batches, never after the last. -/
theorem batching_twelve_by_five (llm : String → Except String String)
    (jsonLoads : String → Except String ParsedResult) (now : String)
    (papers : List Paper) (hlen : papers.length = 12)
    (hraw : ∀ p ∈ papers, p.upd.processed = some false) :
    (chunks 5 papers).map List.length = [5, 5, 2] ∧
    (chunks 5 papers).flatten = papers ∧
    (process_papers llm jsonLoads now 5 papers).1
        = ((chunks 5 papers).map (process_batch llm jsonLoads now)).flatten ∧
    (process_papers llm jsonLoads now 5 papers).2 = 2 := by
  have h1 : (chunks 5 papers).map List.length = [5, 5, 2] := by
    rw [chunks, chunksAux_lengths, hlen]
    decide
  have hproc := processAux_eq_chunks llm jsonLoads now 5 (by decide) papers.length
    papers (Nat.le_refl _)
  have hlen3 : (chunks 5 papers).length = 3 := by
    have hc := congrArg List.length h1
    simpa using hc
  refine ⟨h1, ?_, ?_, ?_⟩
  · exact chunksAux_flatten 5 (by decide) papers.length papers (Nat.le_refl _)
  · rw [process_papers, hproc]
    rfl
  · rw [process_papers, hproc]
    show (chunks 5 papers).length - 1 = 2
    rw [hlen3]

/-- Twelve unenriched sample papers. -/
def twelvePapers : List Paper := List.replicate 12 rawPaper

/-- Concrete instance of the C8 theorem on twelve sample papers. -/
theorem batching_twelve_by_five_witness :
    twelvePapers.length = 12 ∧
    (∀ p ∈ twelvePapers, p.upd.processed = some false) ∧
    (chunks 5 twelvePapers).map List.length = [5, 5, 2] ∧
    (process_papers refusalLlm strictJsonLoads "t" 5 twelvePapers).2 = 2 :=
  ⟨by decide, by decide,
   (batching_twelve_by_five refusalLlm strictJsonLoads "t" twelvePapers
     (by decide) (by decide)).1,
   (batching_twelve_by_five refusalLlm strictJsonLoads "t" twelvePapers
     (by decide) (by decide)).2.2.2⟩

/-- Claim C10: for every positive batch size, process_papers returns exactly
one output per input, in order — the result is the pointwise map of the
per-record step over the input sequence, so no record is dropped or added and
the i-th output derives from the i-th input; every input therefore reaches the
persistence step that follows. -/
theorem process_papers_preserves_sequence (llm : String → Except String String)
    (jsonLoads : String → Except String ParsedResult) (now : String)
    (batch_size : Nat) (papers : List Paper) (hbs : 0 < batch_size) :
    (process_papers llm jsonLoads now batch_size papers).1
        = papers.map (process_one llm jsonLoads now) ∧
    (process_papers llm jsonLoads now batch_size papers).1.length = papers.length := by
  have hproc := processAux_eq_chunks llm jsonLoads now batch_size hbs papers.length
    papers (Nat.le_refl _)
  have h1 : (process_papers llm jsonLoads now batch_size papers).1
      = papers.map (process_one llm jsonLoads now) := by
    rw [process_papers, hproc]
    show ((chunksAux batch_size papers.length papers).map
      (process_batch llm jsonLoads now)).flatten = _
    have hpb : process_batch llm jsonLoads now
        = List.map (process_one llm jsonLoads now) := rfl
    rw [hpb, ← List.map_flatten,
      chunksAux_flatten batch_size hbs papers.length papers (Nat.le_refl _)]
  exact ⟨h1, by rw [h1, List.length_map]⟩

/-- Concrete instance of the C10 theorem at batch size five. -/
theorem process_papers_preserves_sequence_witness :
    0 < 5 ∧
    (process_papers refusalLlm strictJsonLoads "t" 5 twelvePapers).1
        = twelvePapers.map (process_one refusalLlm strictJsonLoads "t") ∧
    (process_papers refusalLlm strictJsonLoads "t" 5 twelvePapers).1.length
        = twelvePapers.length :=
  ⟨by decide,
   (process_papers_preserves_sequence refusalLlm strictJsonLoads "t" 5 twelvePapers
     (by decide)).1,
   (process_papers_preserves_sequence refusalLlm strictJsonLoads "t" 5 twelvePapers
     (by decide)).2⟩
